import Mathlib

/-!
Shallow embedding of the `Ratelimiter` Go service (src/ratelimiter.go).

Modelling conventions:
* wall-clock time is a rational number of seconds (`ℚ`); Go's
  `currentTime.Sub(t) >= time.Second` becomes `1 ≤ now - t`;
* Go `int` counters (`Requests`, `RequestMax`, `TokensPerSec`) are `ℤ`
  (no claim involves machine-word overflow);
* the registry map `map[string]*Client` is an association list with
  first-match lookup; in-place mutation through the `*Client` pointer is
  modelled by writing the updated record back into the registry;
* each handler call takes the current time `now` and the result of
  `LoadConfig` (`none` = missing file or parse failure) as parameters;
* the per-client mutex serializes whole admission evaluations, so a
  concurrent execution is modelled as a sequence of atomic calls.
-/

namespace Ratelimiter

/-- Reject causes of the service. The Go code reports them as distinct
`http.Error` message strings: `missingClientID` is "X-Client-ID header
missing" (lines 126, 159), `windowLimitExceeded` is "Request blocked. Too
many requests." / "Request blocked. Too many custom requests." (lines 145,
184), `noTokensAvailable` is "Request blocked. No more tokens." (line 171). -/
inductive Reason where
  | missingClientID
  | windowLimitExceeded
  | noTokensAvailable
deriving DecidableEq

/-- Outcome of one admission call: HTTP 204/200 is `Admitted`,
HTTP 400 with a message is `Rejected reason`. -/
inductive Decision where
  | Admitted
  | Rejected (reason : Reason)
deriving DecidableEq

/-- Modelled from the spec: the token bucket held in `Client.RateLimiter`
is the external `github.com/juju/ratelimit` dependency, whose code is not
in this repository; spec section 4.3 describes it by `capacity`,
`refillPerSecond`, `availableTokens` and `lastRefill`, with lazy refill
`availableTokens = min(capacity, availableTokens + elapsed × refillPerSecond)`
computed at each take attempt. -/
structure TokenBucket where
  capacity : ℚ
  refillPerSecond : ℚ
  availableTokens : ℚ
  lastRefill : ℚ
deriving DecidableEq

/-- One entry of the configuration file (`ClientConfig` in the Go code). -/
structure ClientConfig where
  id : String
  requestMax : ℤ
  tokensPerSec : ℤ
deriving DecidableEq

/-- Parsed configuration file (`Configuration` in the Go code). -/
structure Configuration where
  clients : List ClientConfig
deriving DecidableEq

/-- Per-client state (`Client` in the Go code). `requests` is the
fixed-window counter, `lastResetTime` the window start; the
`sync.Mutex` field has no data content and is omitted. -/
structure Client where
  id : String
  requestMax : ℤ
  requests : ℤ
  lastResetTime : ℚ
  bucket : TokenBucket
deriving DecidableEq

/-- The registry (`RateLimiter` in the Go code): `clients` is the
`map[string]*Client`, modelled as an association list. -/
structure RateLimiter where
  clients : List (String × Client)
deriving DecidableEq

/-- `NewRateLimiter` : empty registry. -/
def NewRateLimiter : RateLimiter := ⟨[]⟩

/-- Modelled from the spec: `ratelimit.NewBucket(time.Second/tokensPerSec,
tokensPerSec)` creates a bucket that starts full with
`availableTokens = capacity = tokensPerSecond` and refills at
`tokensPerSecond` per second (spec sections 3 and 8). -/
def newBucket (tokensPerSec : ℤ) (now : ℚ) : TokenBucket :=
  { capacity := (tokensPerSec : ℚ)
    refillPerSecond := (tokensPerSec : ℚ)
    availableTokens := (tokensPerSec : ℚ)
    lastRefill := now }

/-- Modelled from the spec: step 1 of section 4.3 — lazy refill at a take
attempt: `elapsed = now − lastRefill`;
`availableTokens = min(capacity, availableTokens + elapsed × refillPerSecond)`;
`lastRefill = now`. -/
def TokenBucket.refill (b : TokenBucket) (now : ℚ) : TokenBucket :=
  { b with
    availableTokens :=
      min b.capacity (b.availableTokens + (now - b.lastRefill) * b.refillPerSecond)
    lastRefill := now }

/-- Modelled from the spec: `bucket.TakeAvailable(1)` — refill, then take
one token when at least one is available (sections 4.3 steps 1–3); returns
the number of tokens taken (0 or 1) and the updated bucket. -/
def TokenBucket.takeAvailableOne (b : TokenBucket) (now : ℚ) : ℕ × TokenBucket :=
  let b1 := b.refill now
  if b1.availableTokens < 1 then (0, b1)
  else (1, { b1 with availableTokens := b1.availableTokens - 1 })

/-- The lookup loop of `getClient` (lines 89–96): scan `config.Clients`
for the first entry whose `ID` matches, returning its
`(RequestMax, TokensPerSec)`; the Go zero values `(0, 0)` when none does. -/
def resolveFromList (clientID : String) : List ClientConfig → ℤ × ℤ
  | [] => (0, 0)
  | cc :: rest =>
    if cc.id = clientID then (cc.requestMax, cc.tokensPerSec)
    else resolveFromList clientID rest

/-- Go map lookup `rl.clients[clientID]`. -/
def findClient (clientID : String) : List (String × Client) → Option Client
  | [] => none
  | p :: rest => if p.1 = clientID then some p.2 else findClient clientID rest

/-- The configuration used when resolving a new client (lines 79–87):
the loaded file when `LoadConfig` succeeded, otherwise the substituted
one-entry default configuration. -/
def loadedConfig (clientID : String) (cfg : Option Configuration) : Configuration :=
  match cfg with
  | some c => c
  | none => ⟨[⟨clientID, 10, 5⟩]⟩

/-- The client record built on first reference (lines 89–115): resolve
`(RequestMax, TokensPerSec)` from the configuration, apply the `== 0`
defaulting (lines 98–106), and create the record with a zero request
count, the current time as window start, and a fresh token bucket. -/
def freshClient (clientID : String) (cfg : Option Configuration) (now : ℚ) : Client :=
  let resolved := resolveFromList clientID (loadedConfig clientID cfg).clients
  let requestMax : ℤ := if resolved.1 = 0 then 10 else resolved.1
  let tokensPerSec : ℤ := if resolved.2 = 0 then 5 else resolved.2
  { id := clientID
    requestMax := requestMax
    requests := 0
    lastResetTime := now
    bucket := newBucket tokensPerSec now }

/-- `getClient` (lines 73–120), run atomically under the registry lock:
return the existing record if present; otherwise create `freshClient`
and insert it. Returns the client together with the updated registry. -/
def getClient (rl : RateLimiter) (clientID : String) (cfg : Option Configuration)
    (now : ℚ) : Client × RateLimiter :=
  match findClient clientID rl.clients with
  | some client => (client, rl)
  | none =>
    (freshClient clientID cfg now,
      ⟨(clientID, freshClient clientID cfg now) :: rl.clients⟩)

/-- Write an updated per-client record back into the registry: the Go code
mutates through the `*Client` pointer, so every entry holding this key
observes the update. -/
def setClient (rl : RateLimiter) (clientID : String) (c : Client) : RateLimiter :=
  ⟨rl.clients.map fun p => if p.1 = clientID then (p.1, c) else p⟩

/-- The window-reset block shared by both handlers (lines 136–141 and
175–180): reset the request count when it has been ≥ 1 second since the
last reset. -/
def windowReset (c : Client) (now : ℚ) : Client :=
  if 1 ≤ now - c.lastResetTime then { c with requests := 0, lastResetTime := now }
  else c

/-- The body of `handleLimit` once the client is resolved and its mutex
held (lines 136–152): lazy window reset, limit check (reject with no
mutation when `Requests >= RequestMax`), otherwise increment and admit. -/
def limitStep (c : Client) (now : ℚ) : Decision × Client :=
  let c1 := windowReset c now
  if c1.requestMax ≤ c1.requests then (Decision.Rejected Reason.windowLimitExceeded, c1)
  else (Decision.Admitted, { c1 with requests := c1.requests + 1 })

/-- The body of `handleCustom` once the client is resolved and its mutex
held (lines 169–191): token-bucket take first (reject "no more tokens"
when it yields nothing), then the same window reset and limit check as
`handleLimit`, then increment and admit. -/
def customStep (c : Client) (now : ℚ) : Decision × Client :=
  let taken := c.bucket.takeAvailableOne now
  let c1 := { c with bucket := taken.2 }
  if taken.1 = 0 then (Decision.Rejected Reason.noTokensAvailable, c1)
  else
    let c2 := windowReset c1 now
    if c2.requestMax ≤ c2.requests then (Decision.Rejected Reason.windowLimitExceeded, c2)
    else (Decision.Admitted, { c2 with requests := c2.requests + 1 })

/-- `handleLimit` (lines 123–153): reject an empty `X-Client-ID` before
touching any state; otherwise resolve the client and run the fixed-window
step under its lock, persisting the mutation. -/
def handleLimit (rl : RateLimiter) (clientID : String) (cfg : Option Configuration)
    (now : ℚ) : Decision × RateLimiter :=
  if clientID = "" then (Decision.Rejected Reason.missingClientID, rl)
  else
    let resolved := getClient rl clientID cfg now
    let step := limitStep resolved.1 now
    (step.1, setClient resolved.2 clientID step.2)

/-- `handleCustom` (lines 156–191): reject an empty `X-Client-ID` before
touching any state; otherwise resolve the client and run the
token-bucket-then-window step under its lock, persisting the mutation. -/
def handleCustom (rl : RateLimiter) (clientID : String) (cfg : Option Configuration)
    (now : ℚ) : Decision × RateLimiter :=
  if clientID = "" then (Decision.Rejected Reason.missingClientID, rl)
  else
    let resolved := getClient rl clientID cfg now
    let step := customStep resolved.1 now
    (step.1, setClient resolved.2 clientID step.2)

/-- Run a sequence of `handleLimit`-body calls on one client at the given
times (the per-client mutex makes each call atomic, so any concurrent
execution for one client is one such sequence). -/
def runLimitCalls (c : Client) : List ℚ → List Decision × Client
  | [] => ([], c)
  | t :: ts =>
    let step := limitStep c t
    let rest := runLimitCalls step.2 ts
    (step.1 :: rest.1, rest.2)

/-- Run a sequence of `handleCustom`-body calls on one client. -/
def runCustomCalls (c : Client) : List ℚ → List Decision × Client
  | [] => ([], c)
  | t :: ts =>
    let step := customStep c t
    let rest := runCustomCalls step.2 ts
    (step.1 :: rest.1, rest.2)

/-- Which of the two admission operations a call invokes. -/
inductive Op where
  | limit
  | custom
deriving DecidableEq

/-- The per-client body of the chosen operation. -/
def opStep : Op → Client → ℚ → Decision × Client
  | Op.limit => limitStep
  | Op.custom => customStep

/-- Run a mixed sequence of admission calls on one client. -/
def runOps (c : Client) : List (Op × ℚ) → List Decision × Client
  | [] => ([], c)
  | ot :: rest1 =>
    let step := opStep ot.1 c ot.2
    let rest := runOps step.2 rest1
    (step.1 :: rest.1, rest.2)

/-- Number of `Admitted` decisions in a list. -/
def countAdmitted (ds : List Decision) : ℕ :=
  ds.countP fun d => decide (d = Decision.Admitted)

/-- Number of `Rejected` decisions in a list. -/
def countRejected (ds : List Decision) : ℕ :=
  ds.countP fun d => decide (d ≠ Decision.Admitted)

/-- Run a sequence of `handleLimit` calls against the full registry for
one client identifier. -/
def runHandleLimit (clientID : String) (cfg : Option Configuration) :
    RateLimiter → List ℚ → List Decision × RateLimiter
  | rl, [] => ([], rl)
  | rl, t :: ts =>
    let step := handleLimit rl clientID cfg t
    let rest := runHandleLimit clientID cfg step.2 ts
    (step.1 :: rest.1, rest.2)

/-- Concrete client state used to instantiate the theorems below on
explicit inputs: window limit `m`, current window count `r`, window
started at time 0, default token bucket. -/
def sampleClient (m r : ℤ) : Client :=
  { id := "a", requestMax := m, requests := r, lastResetTime := 0,
    bucket := newBucket 5 0 }

/-- Concrete client with an empty token bucket last refilled at time 0,
used to instantiate the refill claim. -/
def drainedClient : Client :=
  { id := "a", requestMax := 10, requests := 0, lastResetTime := 0,
    bucket :=
      { capacity := 5, refillPerSecond := 5, availableTokens := 0,
        lastRefill := 0 } }

/-- Concrete configuration with one entry whose `RequestMax` field is the
Go zero value, used to instantiate the zero-limit defaulting claim. -/
def sampleConfig : Configuration := ⟨[⟨"a", 0, 3⟩]⟩

/-! ### Basic lemmas about the window reset and the fixed-window step -/

lemma windowReset_of_lt (c : Client) (now : ℚ) (h : now - c.lastResetTime < 1) :
    windowReset c now = c := by
  simp [windowReset, not_le.mpr h]

lemma windowReset_of_ge (c : Client) (now : ℚ) (h : 1 ≤ now - c.lastResetTime) :
    windowReset c now = { c with requests := 0, lastResetTime := now } := by
  simp [windowReset, h]

lemma limitStep_noReset (c : Client) (now : ℚ) (h : now - c.lastResetTime < 1) :
    limitStep c now =
      if c.requestMax ≤ c.requests then
        (Decision.Rejected Reason.windowLimitExceeded, c)
      else (Decision.Admitted, { c with requests := c.requests + 1 }) := by
  simp only [limitStep, windowReset_of_lt c now h]

/-- Behaviour of a run of fixed-window calls that all land inside the
current window (every call time is < `lastResetTime + 1`, so the lazy
reset never fires): with `requestMax = N` and `requests = k ≤ N`, the
remaining `N - k` admissions are granted in order and every later call is
rejected. -/
lemma runLimit_window (N : ℕ) (times : List ℚ) :
    ∀ (c : Client) (k : ℕ),
      c.requestMax = (N : ℤ) → c.requests = (k : ℤ) →
      (∀ t ∈ times, t < c.lastResetTime + 1) →
      (runLimitCalls c times).1 =
        List.replicate (min (N - k) times.length) Decision.Admitted ++
          List.replicate (times.length - (N - k))
            (Decision.Rejected Reason.windowLimitExceeded) := by
  induction times with
  | nil => intro c k _ _ _; simp [runLimitCalls]
  | cons t ts ih =>
    intro c k hmax hreq hwin
    have ht : t - c.lastResetTime < 1 := by
      have := hwin t (by simp)
      linarith
    have hstep := limitStep_noReset c t ht
    by_cases hNk : N ≤ k
    · have hge : c.requestMax ≤ c.requests := by
        rw [hmax, hreq]; exact_mod_cast hNk
      have hrej : limitStep c t = (Decision.Rejected Reason.windowLimitExceeded, c) := by
        rw [hstep, if_pos hge]
      have hNk0 : N - k = 0 := Nat.sub_eq_zero_of_le hNk
      simp only [runLimitCalls, hrej]
      rw [ih c k hmax hreq (fun u hu => hwin u (by simp [hu]))]
      simp [hNk0, List.replicate_succ]
    · push_neg at hNk
      have hlt : ¬ c.requestMax ≤ c.requests := by
        rw [hmax, hreq]
        intro hc
        exact absurd (by exact_mod_cast hc) (not_le.mpr hNk)
      have hadm : limitStep c t =
          (Decision.Admitted, { c with requests := c.requests + 1 }) := by
        rw [hstep, if_neg hlt]
      simp only [runLimitCalls, hadm]
      have hreq2 : ({ c with requests := c.requests + 1 } : Client).requests
          = ((k + 1 : ℕ) : ℤ) := by
        simp [hreq]
      rw [ih { c with requests := c.requests + 1 } (k + 1) (by simpa using hmax) hreq2
        (fun u hu => hwin u (by simp [hu]))]
      have hsub : N - k = (N - (k + 1)) + 1 := by omega
      rw [hsub]
      simp [List.length_cons, Nat.succ_min_succ, Nat.succ_sub_succ, List.replicate_succ]

lemma countAdmitted_replicate_adm (n : ℕ) :
    countAdmitted (List.replicate n Decision.Admitted) = n := by
  induction n with
  | zero => simp [countAdmitted]
  | succ m ih => simp [countAdmitted, List.replicate_succ, List.countP_cons] at ih ⊢; omega

lemma countAdmitted_replicate_rej (n : ℕ) (r : Reason) :
    countAdmitted (List.replicate n (Decision.Rejected r)) = 0 := by
  induction n with
  | zero => simp [countAdmitted]
  | succ m _ => simp [countAdmitted, List.replicate_succ, List.countP_cons]

lemma countRejected_replicate_adm (n : ℕ) :
    countRejected (List.replicate n Decision.Admitted) = 0 := by
  induction n with
  | zero => simp [countRejected]
  | succ m _ => simp [countRejected, List.replicate_succ, List.countP_cons]

lemma countRejected_replicate_rej (n : ℕ) (r : Reason) :
    countRejected (List.replicate n (Decision.Rejected r)) = n := by
  induction n with
  | zero => simp [countRejected]
  | succ m ih => simp [countRejected, List.replicate_succ, List.countP_cons] at ih ⊢; omega

/-! ### Claim C1 -/

/-- Claim C1: for a client whose resolved limits have `requestMax = N`,
when all calls occur within one second of the client's window start (so
no window reset intervenes), the first N fixed-window calls return
`Admitted` and the (N+1)-th returns `Rejected` with the window-limit
reason. -/
theorem claim_C1 (c : Client) (N : ℕ) (times : List ℚ)
    (hmax : c.requestMax = (N : ℤ)) (hreq : c.requests = 0)
    (hlen : times.length = N + 1)
    (hwin : ∀ t ∈ times, c.lastResetTime ≤ t ∧ t < c.lastResetTime + 1) :
    (runLimitCalls c times).1 =
      List.replicate N Decision.Admitted ++
        [Decision.Rejected Reason.windowLimitExceeded] := by
  have h := runLimit_window N times c 0 hmax (by simpa using hreq)
    (fun t ht => (hwin t ht).2)
  rw [h, hlen]
  simp

/-- Concrete instance of claim C1: a fresh client with `requestMax = 2`,
three calls at the window start, decisions `[Admitted, Admitted,
Rejected]`. -/
theorem claim_C1_witness :
    (runLimitCalls (sampleClient 2 0) [0, 0, 0]).1 =
      List.replicate 2 Decision.Admitted ++
        [Decision.Rejected Reason.windowLimitExceeded] :=
  claim_C1 (sampleClient 2 0) 2 [0, 0, 0] rfl rfl rfl
    (by intro t ht; simp at ht; simp [ht, sampleClient])

/-! ### Claim C3 -/

lemma countAdmitted_append (l1 l2 : List Decision) :
    countAdmitted (l1 ++ l2) = countAdmitted l1 + countAdmitted l2 :=
  List.countP_append _ _ _

lemma countRejected_append (l1 l2 : List Decision) :
    countRejected (l1 ++ l2) = countRejected l1 + countRejected l2 :=
  List.countP_append _ _ _

/-- Claim C3: for a client with `requestMax = N`, `K > N` fixed-window
calls in one window produce exactly N `Admitted` and `K − N` `Rejected`
decisions. The per-client mutex makes each admission evaluation atomic,
so a concurrent execution is modelled as a sequence of whole calls. -/
theorem claim_C3 (c : Client) (N : ℕ) (times : List ℚ)
    (hmax : c.requestMax = (N : ℤ)) (hreq : c.requests = 0)
    (hK : N < times.length)
    (hwin : ∀ t ∈ times, c.lastResetTime ≤ t ∧ t < c.lastResetTime + 1) :
    countAdmitted (runLimitCalls c times).1 = N ∧
    countRejected (runLimitCalls c times).1 = times.length - N := by
  have h := runLimit_window N times c 0 hmax (by simpa using hreq)
    (fun t ht => (hwin t ht).2)
  have hmin : min (N - 0) times.length = N := by omega
  rw [h, hmin, Nat.sub_zero]
  rw [countAdmitted_append, countRejected_append, countAdmitted_replicate_adm,
    countAdmitted_replicate_rej, countRejected_replicate_adm,
    countRejected_replicate_rej]
  omega

/-- Concrete instance of claim C3: `requestMax = 1`, three simultaneous
calls, exactly one `Admitted` and two `Rejected`. -/
theorem claim_C3_witness :
    countAdmitted (runLimitCalls (sampleClient 1 0) [0, 0, 0]).1 = 1 ∧
    countRejected (runLimitCalls (sampleClient 1 0) [0, 0, 0]).1 = 3 - 1 :=
  claim_C3 (sampleClient 1 0) 1 [0, 0, 0] rfl rfl (by norm_num)
    (by intro t ht; simp at ht; simp [ht, sampleClient])

/-! ### Claim C5 -/

lemma customStep_noReset (c : Client) (now : ℚ) (h : now - c.lastResetTime < 1) :
    customStep c now =
      (if (c.bucket.takeAvailableOne now).1 = 0 then
        (Decision.Rejected Reason.noTokensAvailable,
          { c with bucket := (c.bucket.takeAvailableOne now).2 })
      else if c.requestMax ≤ c.requests then
        (Decision.Rejected Reason.windowLimitExceeded,
          { c with bucket := (c.bucket.takeAvailableOne now).2 })
      else (Decision.Admitted,
        { c with bucket := (c.bucket.takeAvailableOne now).2,
                 requests := c.requests + 1 })) := by
  have hreset :
      windowReset { c with bucket := (c.bucket.takeAvailableOne now).2 } now
        = { c with bucket := (c.bucket.takeAvailableOne now).2 } :=
    windowReset_of_lt _ now (by simpa using h)
  simp only [customStep, hreset]

/-- Within the current window (no reset fires), one step of either
operation changes `requests` by exactly one on admission and not at all on
rejection, keeps `lastResetTime` and `requestMax`, and admits only when
`requests < requestMax`. -/
lemma opStep_window (op : Op) (c : Client) (t : ℚ) (h : t - c.lastResetTime < 1) :
    (opStep op c t).2.requests =
        c.requests + (if (opStep op c t).1 = Decision.Admitted then 1 else 0) ∧
    (opStep op c t).2.lastResetTime = c.lastResetTime ∧
    (opStep op c t).2.requestMax = c.requestMax ∧
    ((opStep op c t).1 = Decision.Admitted → c.requests < c.requestMax) := by
  cases op with
  | limit =>
    simp only [opStep, limitStep_noReset c t h]
    split
    · simp
    · next hle => simp [lt_of_not_le hle]
  | custom =>
    simp only [opStep, customStep_noReset c t h]
    split
    · simp
    · split
      · simp
      · next _ hle => simp [lt_of_not_le hle]

/-- Invariant of a run of mixed admission calls inside one window:
`requests` grows by exactly the number of admissions, the window fields
are stable, and `requests` never exceeds `requestMax` once below it. -/
lemma runOps_window (calls : List (Op × ℚ)) :
    ∀ c : Client,
      (∀ p ∈ calls, p.2 < c.lastResetTime + 1) →
      (runOps c calls).2.requests
          = c.requests + (countAdmitted (runOps c calls).1 : ℤ) ∧
      (runOps c calls).2.lastResetTime = c.lastResetTime ∧
      (runOps c calls).2.requestMax = c.requestMax ∧
      (c.requests ≤ c.requestMax →
        (runOps c calls).2.requests ≤ c.requestMax) := by
  induction calls with
  | nil => intro c _; simp [runOps, countAdmitted]
  | cons p rest ih =>
    intro c hwin
    have hp : p.2 - c.lastResetTime < 1 := by
      have := hwin p (by simp)
      linarith
    obtain ⟨h1, h2, h3, h4⟩ := opStep_window p.1 c p.2 hp
    have hwin2 : ∀ q ∈ rest, q.2 < (opStep p.1 c p.2).2.lastResetTime + 1 := by
      intro q hq
      rw [h2]
      exact hwin q (by simp [hq])
    obtain ⟨g1, g2, g3, g4⟩ := ih (opStep p.1 c p.2).2 hwin2
    have hrun2 : (runOps c (p :: rest)).2 = (runOps (opStep p.1 c p.2).2 rest).2 := by
      simp [runOps]
    have hrun1 : (runOps c (p :: rest)).1
        = (opStep p.1 c p.2).1 :: (runOps (opStep p.1 c p.2).2 rest).1 := by
      simp [runOps]
    refine ⟨?_, by rw [hrun2, g2, h2], by rw [hrun2, g3, h3], ?_⟩
    · rw [hrun2, hrun1, g1, h1]
      simp only [countAdmitted, List.countP_cons]
      by_cases hA : (opStep p.1 c p.2).1 = Decision.Admitted
      · simp only [hA, decide_True, if_true]
        push_cast
        ring
      · simp only [hA, decide_False, if_false]
        push_cast
        ring
    · intro hb
      have hc2 : (opStep p.1 c p.2).2.requests ≤ (opStep p.1 c p.2).2.requestMax := by
        rw [h3, h1]
        split
        · next ha => have := h4 ha; omega
        · omega
      rw [hrun2]
      calc (runOps (opStep p.1 c p.2).2 rest).2.requests
          ≤ (opStep p.1 c p.2).2.requestMax := g4 hc2
        _ = c.requestMax := h3

/-- Claim C5: in both admission operations the window counter is
incremented exactly on the admit branch; hence over any in-window call
sequence starting from a fresh counter, `requests` equals the number of
`Admitted` decisions, and an admission increment never pushes `requests`
past `requestMax`. -/
theorem claim_C5 (c : Client) (calls : List (Op × ℚ))
    (hreq : c.requests = 0)
    (hwin : ∀ p ∈ calls, p.2 < c.lastResetTime + 1) :
    (∀ (op : Op) (d : Client) (t : ℚ), t - d.lastResetTime < 1 →
        (opStep op d t).2.requests =
          d.requests + (if (opStep op d t).1 = Decision.Admitted then 1 else 0)) ∧
    (runOps c calls).2.requests = (countAdmitted (runOps c calls).1 : ℤ) ∧
    (0 ≤ c.requestMax → (runOps c calls).2.requests ≤ c.requestMax) := by
  obtain ⟨g1, _, _, g4⟩ := runOps_window calls c hwin
  exact ⟨fun op d t h => (opStep_window op d t h).1,
    by rw [g1, hreq]; ring,
    fun h0 => g4 (by rw [hreq]; exact h0)⟩

/-- Concrete instance of claim C5: `requestMax = 2`, three in-window
calls (fixed-window, token-bucket, fixed-window). -/
theorem claim_C5_witness :
    (∀ (op : Op) (d : Client) (t : ℚ), t - d.lastResetTime < 1 →
        (opStep op d t).2.requests =
          d.requests + (if (opStep op d t).1 = Decision.Admitted then 1 else 0)) ∧
    (runOps (sampleClient 2 0)
        [(Op.limit, 0), (Op.custom, 0), (Op.limit, 0)]).2.requests =
      (countAdmitted (runOps (sampleClient 2 0)
        [(Op.limit, 0), (Op.custom, 0), (Op.limit, 0)]).1 : ℤ) ∧
    ((0 : ℤ) ≤ (sampleClient 2 0).requestMax →
      (runOps (sampleClient 2 0)
        [(Op.limit, 0), (Op.custom, 0), (Op.limit, 0)]).2.requests ≤
        (sampleClient 2 0).requestMax) :=
  claim_C5 (sampleClient 2 0)
    [(Op.limit, 0), (Op.custom, 0), (Op.limit, 0)] rfl
    (by intro p hp; simp at hp; rcases hp with h | h | h <;> simp [h, sampleClient])

/-! ### Claim C6 -/

/-- Claim C6: the window counter is reset (to 0, with `windowStart`
advanced to `now`) exactly when ≥ 1 second has elapsed since
`windowStart`, lazily at call time; consequently, from any client state,
N fixed-window calls placed ≥ 1 second after the current window start
(and within one second of each other's window) are all admitted again. -/
theorem claim_C6 (c : Client) (N : ℕ) (tStart : ℚ) (times : List ℚ)
    (hmax : c.requestMax = (N : ℤ))
    (hlen : times.length = N)
    (hwait : c.lastResetTime + 1 ≤ tStart)
    (hwin : ∀ t ∈ times, tStart ≤ t ∧ t < tStart + 1) :
    (∀ (d : Client) (now : ℚ),
        (1 ≤ now - d.lastResetTime →
          windowReset d now = { d with requests := 0, lastResetTime := now }) ∧
        (now - d.lastResetTime < 1 → windowReset d now = d)) ∧
    (runLimitCalls c times).1 = List.replicate N Decision.Admitted := by
  refine ⟨fun d now => ⟨windowReset_of_ge d now, windowReset_of_lt d now⟩, ?_⟩
  cases times with
  | nil => simp [runLimitCalls, ← hlen]
  | cons t1 ts =>
    have ht1 : tStart ≤ t1 := (hwin t1 (by simp)).1
    have h1 : 1 ≤ t1 - c.lastResetTime := by linarith
    have hN : 1 ≤ N := by rw [← hlen]; simp
    have hadm : limitStep c t1 =
        (Decision.Admitted, { c with requests := 1, lastResetTime := t1 }) := by
      simp only [limitStep, windowReset_of_ge c t1 h1]
      rw [if_neg (by simp [hmax]; omega)]
      norm_num
    simp only [runLimitCalls, hadm]
    rw [runLimit_window N ts { c with requests := 1, lastResetTime := t1 } 1
      (by simpa using hmax) (by simp)
      (by
        intro u hu
        have hu2 := (hwin u (by simp [hu])).2
        simp only
        linarith)]
    have hts : ts.length = N - 1 := by
      simp only [List.length_cons] at hlen
      omega
    rw [hts]
    have hmin : min (N - 1) (N - 1) = N - 1 := min_self _
    rw [hmin, Nat.sub_self]
    conv_rhs => rw [show N = (N - 1) + 1 by omega]
    simp [List.replicate_succ]

/-- Concrete instance of claim C6: an exhausted client (`requestMax =
requests = 2`) called twice one second later is admitted twice. -/
theorem claim_C6_witness :
    (∀ (d : Client) (now : ℚ),
        (1 ≤ now - d.lastResetTime →
          windowReset d now = { d with requests := 0, lastResetTime := now }) ∧
        (now - d.lastResetTime < 1 → windowReset d now = d)) ∧
    (runLimitCalls (sampleClient 2 2) [1, 1]).1 =
      List.replicate 2 Decision.Admitted :=
  claim_C6 (sampleClient 2 2) 2 1 [1, 1] rfl rfl (by norm_num [sampleClient])
    (by intro t ht; simp at ht; simp [ht])

/-! ### Claim C2 -/

lemma takeAvailableOne_of_lt (b : TokenBucket) (now : ℚ)
    (h : (b.refill now).availableTokens < 1) :
    b.takeAvailableOne now = (0, b.refill now) := by
  simp [TokenBucket.takeAvailableOne, h]

lemma takeAvailableOne_of_ge (b : TokenBucket) (now : ℚ)
    (h : 1 ≤ (b.refill now).availableTokens) :
    b.takeAvailableOne now =
      (1, { b.refill now with
            availableTokens := (b.refill now).availableTokens - 1 }) := by
  simp [TokenBucket.takeAvailableOne, not_lt.mpr h]

/-- Claim C2: `AdmitTokenBucket` gates on the token bucket first and on
the shared fixed window second. With fewer than 1 refreshed token the
call is rejected for lack of tokens with no further mutation; with a
token available it is spent unconditionally, and a subsequent
window-limit rejection (same `requests`/`lastResetTime` fields as the
fixed-window operation, here inside one window) still leaves the token
spent; on admission the window counter is incremented. -/
theorem claim_C2 (c : Client) (now : ℚ) :
    ((c.bucket.refill now).availableTokens < 1 →
      customStep c now =
        (Decision.Rejected Reason.noTokensAvailable,
          { c with bucket := c.bucket.refill now })) ∧
    (1 ≤ (c.bucket.refill now).availableTokens →
      now - c.lastResetTime < 1 →
      c.requestMax ≤ c.requests →
      customStep c now =
        (Decision.Rejected Reason.windowLimitExceeded,
          { c with bucket :=
              { c.bucket.refill now with
                availableTokens := (c.bucket.refill now).availableTokens - 1 } })) ∧
    (1 ≤ (c.bucket.refill now).availableTokens →
      now - c.lastResetTime < 1 →
      ¬ c.requestMax ≤ c.requests →
      customStep c now =
        (Decision.Admitted,
          { c with
            bucket :=
              { c.bucket.refill now with
                availableTokens := (c.bucket.refill now).availableTokens - 1 },
            requests := c.requests + 1 })) := by
  refine ⟨fun h1 => ?_, fun h1 h2 h3 => ?_, fun h1 h2 h3 => ?_⟩
  · simp [customStep, takeAvailableOne_of_lt c.bucket now h1]
  · rw [customStep_noReset c now h2, takeAvailableOne_of_ge c.bucket now h1]
    simp [h3]
  · rw [customStep_noReset c now h2, takeAvailableOne_of_ge c.bucket now h1]
    simp [h3]

/-- Concrete instance of claim C2, middle branch: a window-exhausted
client with a full bucket is rejected by the window but has permanently
spent one token. -/
theorem claim_C2_witness :
    customStep (sampleClient 2 2) 0 =
      (Decision.Rejected Reason.windowLimitExceeded,
        { sampleClient 2 2 with
          bucket :=
            { (sampleClient 2 2).bucket.refill 0 with
              availableTokens :=
                ((sampleClient 2 2).bucket.refill 0).availableTokens - 1 } }) :=
  (claim_C2 (sampleClient 2 2) 0).2.1
    (by norm_num [sampleClient, newBucket, TokenBucket.refill])
    (by norm_num [sampleClient])
    (by norm_num [sampleClient])

/-! ### Claim C7 -/

/-- Draining run: when the lazy refill at time `now` yields exactly `j`
tokens and the window does not interfere, `j + 1` token-bucket calls at
time `now` produce `j` admissions followed by a no-tokens rejection. -/
lemma runCustom_drain (j : ℕ) :
    ∀ (c : Client) (now : ℚ),
      min c.bucket.capacity (c.bucket.availableTokens
          + (now - c.bucket.lastRefill) * c.bucket.refillPerSecond) = (j : ℚ) →
      now - c.lastResetTime < 1 →
      c.requests + (j : ℤ) ≤ c.requestMax →
      (runCustomCalls c (List.replicate (j + 1) now)).1 =
        List.replicate j Decision.Admitted ++
          [Decision.Rejected Reason.noTokensAvailable] := by
  induction j with
  | zero =>
    intro c now hav hwin _
    have h0 : (c.bucket.refill now).availableTokens < 1 := by
      simp only [TokenBucket.refill]
      rw [hav]
      norm_num
    have hstep : customStep c now =
        (Decision.Rejected Reason.noTokensAvailable,
          { c with bucket := c.bucket.refill now }) := by
      simp [customStep, takeAvailableOne_of_lt c.bucket now h0]
    simp [runCustomCalls, hstep, List.replicate_succ]
  | succ m ih =>
    intro c now hav hwin hreq
    have havail : (c.bucket.refill now).availableTokens = ((m + 1 : ℕ) : ℚ) := by
      simp only [TokenBucket.refill]
      exact hav
    have hge : 1 ≤ (c.bucket.refill now).availableTokens := by
      rw [havail]
      exact_mod_cast Nat.succ_le_succ (Nat.zero_le m)
    have hlt : ¬ c.requestMax ≤ c.requests := by
      push_cast at hreq
      omega
    have hstep : customStep c now =
        (Decision.Admitted,
          { c with
            bucket :=
              { c.bucket.refill now with
                availableTokens := (c.bucket.refill now).availableTokens - 1 },
            requests := c.requests + 1 }) := by
      rw [customStep_noReset c now hwin, takeAvailableOne_of_ge c.bucket now hge]
      simp [hlt]
    have hcap : ((m : ℕ) : ℚ) ≤ c.bucket.capacity := by
      have h1 : ((m + 1 : ℕ) : ℚ) ≤ c.bucket.capacity := by
        rw [← hav]
        exact min_le_left _ _
      push_cast at h1 ⊢
      linarith
    have hrec := ih
      { c with
        bucket :=
          { c.bucket.refill now with
            availableTokens := (c.bucket.refill now).availableTokens - 1 },
        requests := c.requests + 1 } now
      (by
        show min c.bucket.capacity
            ((c.bucket.refill now).availableTokens - 1
              + (now - now) * c.bucket.refillPerSecond) = (m : ℚ)
        rw [havail]
        have harith : ((m + 1 : ℕ) : ℚ) - 1 + (now - now) * c.bucket.refillPerSecond
            = (m : ℚ) := by push_cast; ring
        rw [harith]
        exact min_eq_right hcap)
      (by simpa using hwin)
      (by push_cast at hreq ⊢; omega)
    rw [List.replicate_succ]
    have hrun : (runCustomCalls c (now :: List.replicate (m + 1) now)).1
        = (customStep c now).1
          :: (runCustomCalls (customStep c now).2 (List.replicate (m + 1) now)).1 :=
      rfl
    rw [hrun, hstep]
    dsimp only at hrec ⊢
    rw [hrec, List.replicate_succ]
    rfl

/-- Claim C7: the bucket starts full (`availableTokens = capacity =
tokensPerSecond`), refills lazily by `elapsed × refillPerSecond` capped
at capacity, so a client that exhausted its bucket at time `s` and calls
again at `s + t` has exactly `min(capacity, t × refillPerSecond)` tokens:
that many further token-bucket calls are admitted and the next is
rejected for lack of tokens. -/
theorem claim_C7 (c : Client) (s t : ℚ) (m : ℕ)
    (hexh : c.bucket.availableTokens = 0)
    (hlr : c.bucket.lastRefill = s)
    (hm : min c.bucket.capacity (t * c.bucket.refillPerSecond) = (m : ℚ))
    (hwin : (s + t) - c.lastResetTime < 1)
    (hreq : c.requests + (m : ℤ) ≤ c.requestMax) :
    (∀ (R : ℤ) (u : ℚ),
        (newBucket R u).availableTokens = (newBucket R u).capacity ∧
        (newBucket R u).capacity = (R : ℚ) ∧
        (newBucket R u).refillPerSecond = (R : ℚ)) ∧
    (runCustomCalls c (List.replicate (m + 1) (s + t))).1 =
      List.replicate m Decision.Admitted ++
        [Decision.Rejected Reason.noTokensAvailable] := by
  refine ⟨fun R u => ⟨rfl, rfl, rfl⟩, ?_⟩
  apply runCustom_drain m c (s + t) ?_ hwin hreq
  rw [hexh, hlr]
  have harith : (0 : ℚ) + (s + t - s) * c.bucket.refillPerSecond
      = t * c.bucket.refillPerSecond := by ring
  rw [harith]
  exact hm

/-- Concrete instance of claim C7: an exhausted bucket with
`tokensPerSecond = 5`, queried 2/5 s later, yields exactly 2 admissions
then a no-tokens rejection. -/
theorem claim_C7_witness :
    (∀ (R : ℤ) (u : ℚ),
        (newBucket R u).availableTokens = (newBucket R u).capacity ∧
        (newBucket R u).capacity = (R : ℚ) ∧
        (newBucket R u).refillPerSecond = (R : ℚ)) ∧
    (runCustomCalls drainedClient (List.replicate (2 + 1) (0 + 2/5))).1 =
      List.replicate 2 Decision.Admitted ++
        [Decision.Rejected Reason.noTokensAvailable] :=
  claim_C7 drainedClient 0 (2/5) 2 rfl rfl
    (by norm_num [drainedClient])
    (by norm_num [drainedClient])
    (by norm_num [drainedClient])

/-! ### Registry lemmas -/

lemma findClient_none_iff (clientID : String) (l : List (String × Client)) :
    findClient clientID l = none ↔ ∀ p ∈ l, p.1 ≠ clientID := by
  induction l with
  | nil => simp [findClient]
  | cons p rest ih =>
    by_cases hp : p.1 = clientID
    · simp [findClient, hp]
    · simp [findClient, hp, ih]

lemma getClient_found (rl : RateLimiter) (clientID : String)
    (cfg : Option Configuration) (now : ℚ) (c : Client)
    (h : findClient clientID rl.clients = some c) :
    getClient rl clientID cfg now = (c, rl) := by
  simp [getClient, h]

lemma getClient_fresh (rl : RateLimiter) (clientID : String)
    (cfg : Option Configuration) (now : ℚ)
    (h : findClient clientID rl.clients = none) :
    getClient rl clientID cfg now =
      (freshClient clientID cfg now,
        ⟨(clientID, freshClient clientID cfg now) :: rl.clients⟩) := by
  simp [getClient, h]

lemma findClient_getClient (rl : RateLimiter) (clientID : String)
    (cfg : Option Configuration) (now : ℚ) :
    findClient clientID (getClient rl clientID cfg now).2.clients
      = some (getClient rl clientID cfg now).1 := by
  cases h : findClient clientID rl.clients with
  | some c => rw [getClient_found rl clientID cfg now c h]; exact h
  | none => rw [getClient_fresh rl clientID cfg now h]; simp [findClient]

lemma findClient_set (clientID : String) (c2 : Client) (l : List (String × Client)) :
    findClient clientID (l.map fun p => if p.1 = clientID then (p.1, c2) else p)
      = (findClient clientID l).map fun _ => c2 := by
  induction l with
  | nil => simp [findClient]
  | cons p rest ih =>
    by_cases hp : p.1 = clientID
    · simp [findClient, hp]
    · simp [findClient, hp, ih]

/-- With the client present in the registry and a non-empty identifier, a
run of `handleLimit` calls at the registry level produces the same
decisions as the per-client run, the mutated record being written back
through the `*Client` pointer after each call. -/
lemma runHandleLimit_sim (clientID : String) (cfg : Option Configuration)
    (times : List ℚ) :
    ∀ (rl : RateLimiter) (c : Client), clientID ≠ "" →
      findClient clientID rl.clients = some c →
      (runHandleLimit clientID cfg rl times).1 = (runLimitCalls c times).1 := by
  induction times with
  | nil => intro rl c _ _; rfl
  | cons t ts ih =>
    intro rl c hid hfind
    have hhl : handleLimit rl clientID cfg t
        = ((limitStep c t).1, setClient rl clientID (limitStep c t).2) := by
      simp [handleLimit, hid, getClient_found rl clientID cfg t c hfind]
    have hfind2 : findClient clientID
        (setClient rl clientID (limitStep c t).2).clients
          = some (limitStep c t).2 := by
      simp [setClient, findClient_set, hfind]
    show (handleLimit rl clientID cfg t).1
        :: (runHandleLimit clientID cfg (handleLimit rl clientID cfg t).2 ts).1
      = (limitStep c t).1 :: (runLimitCalls (limitStep c t).2 ts).1
    rw [hhl]
    dsimp only
    rw [ih (setClient rl clientID (limitStep c t).2) (limitStep c t).2 hid hfind2]

/-! ### Claim C4 -/

/-- Claim C4: at most one `ClientState` is ever created per `clientID` —
the atomic check-then-insert preserves key uniqueness of the registry —
and every `getClient` call after the first returns the same already
created record (hence unchanged limits) while leaving the registry
untouched: repeated resolution is idempotent. -/
theorem claim_C4 (rl : RateLimiter) (clientID : String)
    (cfg cfg2 : Option Configuration) (now now2 : ℚ)
    (hnd : (rl.clients.map Prod.fst).Nodup) :
    ((getClient rl clientID cfg now).2.clients.map Prod.fst).Nodup ∧
    getClient (getClient rl clientID cfg now).2 clientID cfg2 now2
      = ((getClient rl clientID cfg now).1, (getClient rl clientID cfg now).2) := by
  constructor
  · cases h : findClient clientID rl.clients with
    | some c => rw [getClient_found rl clientID cfg now c h]; exact hnd
    | none =>
      rw [getClient_fresh rl clientID cfg now h]
      refine List.nodup_cons.mpr ⟨?_, hnd⟩
      intro hmem
      rw [List.mem_map] at hmem
      obtain ⟨p, hp, hpe⟩ := hmem
      exact (findClient_none_iff clientID rl.clients).mp h p hp hpe
  · exact getClient_found _ _ _ _ _ (findClient_getClient rl clientID cfg now)

/-- Concrete instance of claim C4: resolving "a" twice from an empty
registry creates one record and returns it unchanged the second time. -/
theorem claim_C4_witness :
    ((getClient NewRateLimiter "a" none 0).2.clients.map Prod.fst).Nodup ∧
    getClient (getClient NewRateLimiter "a" none 0).2 "a" none 1
      = ((getClient NewRateLimiter "a" none 0).1,
          (getClient NewRateLimiter "a" none 0).2) :=
  claim_C4 NewRateLimiter "a" none none 0 1 (by simp [NewRateLimiter])

/-! ### Claim C9 -/

/-- Claim C9: both admission operations called with an empty client
identifier return `Rejected` with the dedicated precondition reason,
which is distinct from both rate-limit reasons, and leave the registry
(and hence every client state) untouched, so no `ClientState` is created
for the empty key and repeated empty-identifier calls are idempotent. -/
theorem claim_C9 (rl : RateLimiter) (cfg : Option Configuration) (now : ℚ) :
    handleLimit rl "" cfg now = (Decision.Rejected Reason.missingClientID, rl) ∧
    handleCustom rl "" cfg now = (Decision.Rejected Reason.missingClientID, rl) ∧
    Reason.missingClientID ≠ Reason.windowLimitExceeded ∧
    Reason.missingClientID ≠ Reason.noTokensAvailable := by
  exact ⟨by simp [handleLimit], by simp [handleCustom], by decide, by decide⟩

/-! ### Claim C10 -/

/-- Claim C10: a configured entry with zero `RequestMax` (resp. zero
`TokensPerSec`) is indistinguishable from an absent one and receives the
default 10 (resp. 5); any non-zero configured value — including a
negative `RequestMax` — is accepted as-is, and with a negative
`requestMax` every fixed-window call is rejected immediately; no
validation enforces positivity. -/
theorem claim_C10 (rl : RateLimiter) (clientID : String) (config : Configuration)
    (now : ℚ) (q p : ℤ)
    (hnew : findClient clientID rl.clients = none)
    (hres : resolveFromList clientID config.clients = (q, p)) :
    (q = 0 → (getClient rl clientID (some config) now).1.requestMax = 10) ∧
    (p = 0 → (getClient rl clientID (some config) now).1.bucket.capacity = 5) ∧
    (q ≠ 0 → (getClient rl clientID (some config) now).1.requestMax = q) ∧
    (p ≠ 0 → (getClient rl clientID (some config) now).1.bucket.capacity = (p : ℚ)) ∧
    (∀ (d : Client) (t : ℚ), d.requestMax < 0 → 0 ≤ d.requests →
      (limitStep d t).1 = Decision.Rejected Reason.windowLimitExceeded) := by
  rw [getClient_fresh rl clientID (some config) now hnew]
  refine ⟨fun h0 => ?_, fun h0 => ?_, fun h0 => ?_, fun h0 => ?_, ?_⟩
  · simp [freshClient, loadedConfig, hres, h0]
  · simp [freshClient, loadedConfig, hres, h0, newBucket]
  · simp [freshClient, loadedConfig, hres, h0]
  · simp [freshClient, loadedConfig, hres, h0, newBucket]
  · intro d t hneg hpos
    by_cases hr : 1 ≤ t - d.lastResetTime
    · simp only [limitStep, windowReset_of_ge d t hr]
      rw [if_pos (by omega)]
    · push_neg at hr
      rw [limitStep_noReset d t hr, if_pos (by omega)]

/-- Concrete instance of claim C10: configured entry `{"a", RequestMax
0, TokensPerSec 3}` resolves to `requestMax = 10` and capacity 3, and a
negative-limit client always rejects. -/
theorem claim_C10_witness :
    ((0 : ℤ) = 0 → (getClient NewRateLimiter "a" (some sampleConfig) 0).1.requestMax = 10) ∧
    ((3 : ℤ) = 0 → (getClient NewRateLimiter "a" (some sampleConfig) 0).1.bucket.capacity = 5) ∧
    ((0 : ℤ) ≠ 0 → (getClient NewRateLimiter "a" (some sampleConfig) 0).1.requestMax = 0) ∧
    ((3 : ℤ) ≠ 0 → (getClient NewRateLimiter "a" (some sampleConfig) 0).1.bucket.capacity = ((3 : ℤ) : ℚ)) ∧
    (∀ (d : Client) (t : ℚ), d.requestMax < 0 → 0 ≤ d.requests →
      (limitStep d t).1 = Decision.Rejected Reason.windowLimitExceeded) :=
  claim_C10 NewRateLimiter "a" sampleConfig 0 0 3 rfl
    (by simp [sampleConfig, resolveFromList])

/-! ### Claim C8 -/

lemma resolveFromList_absent (clientID : String) (l : List ClientConfig)
    (h : ∀ cc ∈ l, cc.id ≠ clientID) : resolveFromList clientID l = (0, 0) := by
  induction l with
  | nil => rfl
  | cons cc rest ih =>
    have hcc : ¬ cc.id = clientID := h cc (by simp)
    rw [resolveFromList, if_neg hcc]
    exact ih fun d hd => h d (by simp [hd])

/-- When the configuration is unavailable or lacks the identifier, the
freshly created client carries the default limits `requestMax = 10`,
`tokensPerSecond = 5`. -/
lemma freshClient_default (clientID : String) (cfg : Option Configuration) (now : ℚ)
    (habsent : cfg = none ∨
      ∃ config, cfg = some config ∧ ∀ cc ∈ config.clients, cc.id ≠ clientID) :
    freshClient clientID cfg now =
      { id := clientID, requestMax := 10, requests := 0, lastResetTime := now,
        bucket := newBucket 5 now } := by
  rcases habsent with h | ⟨config, hc, habs⟩
  · subst h
    simp [freshClient, loadedConfig, resolveFromList]
  · subst hc
    simp [freshClient, loadedConfig,
      resolveFromList_absent clientID config.clients habs]

/-- Claim C8: an identifier absent from the configuration — or a missing
or unparseable configuration — resolves to the defaults `requestMax =
10`, `tokensPerSecond = 5`, resolution always succeeding; with those
limits the first 10 fixed-window calls in one window are admitted and
the 11th is rejected. -/
theorem claim_C8 (rl : RateLimiter) (clientID : String) (cfg : Option Configuration)
    (t0 : ℚ) (times : List ℚ)
    (hid : clientID ≠ "")
    (hnew : findClient clientID rl.clients = none)
    (habsent : cfg = none ∨
      ∃ config, cfg = some config ∧ ∀ cc ∈ config.clients, cc.id ≠ clientID)
    (hlen : times.length = 10)
    (hwin : ∀ t ∈ times, t0 ≤ t ∧ t < t0 + 1) :
    (getClient rl clientID cfg t0).1.requestMax = 10 ∧
    (getClient rl clientID cfg t0).1.bucket.capacity = 5 ∧
    (runHandleLimit clientID cfg rl (t0 :: times)).1 =
      List.replicate 10 Decision.Admitted ++
        [Decision.Rejected Reason.windowLimitExceeded] := by
  have hfc := freshClient_default clientID cfg t0 habsent
  have hg := getClient_fresh rl clientID cfg t0 hnew
  refine ⟨by rw [hg]; dsimp only; rw [hfc], ?_, ?_⟩
  · rw [hg]
    dsimp only
    rw [hfc]
    norm_num [newBucket]
  · have hls : limitStep (freshClient clientID cfg t0) t0 =
        (Decision.Admitted, { freshClient clientID cfg t0 with requests := 1 }) := by
      rw [hfc]
      norm_num [limitStep, windowReset]
    have hstep1 : handleLimit rl clientID cfg t0
        = (Decision.Admitted,
            setClient ⟨(clientID, freshClient clientID cfg t0) :: rl.clients⟩
              clientID { freshClient clientID cfg t0 with requests := 1 }) := by
      simp only [handleLimit, if_neg hid, hg, hls]
    have hfind2 : findClient clientID
        (setClient ⟨(clientID, freshClient clientID cfg t0) :: rl.clients⟩
          clientID { freshClient clientID cfg t0 with requests := 1 }).clients
        = some { freshClient clientID cfg t0 with requests := 1 } := by
      simp [setClient, findClient_set, findClient]
    have hsim := runHandleLimit_sim clientID cfg times _ _ hid hfind2
    have hwl := runLimit_window 10 times
      { freshClient clientID cfg t0 with requests := 1 } 1
      (by simp [hfc])
      (by simp [hfc])
      (by
        intro t ht
        have h2 := (hwin t ht).2
        simp only [hfc]
        linarith)
    show (handleLimit rl clientID cfg t0).1
        :: (runHandleLimit clientID cfg (handleLimit rl clientID cfg t0).2 times).1
      = _
    rw [hstep1]
    dsimp only
    rw [hsim, hwl, hlen]
    decide

/-- Concrete instance of claim C8: unknown identifier, missing
configuration file, 11 calls from an empty registry: defaults `(10, 5)`,
ten admissions, one rejection. -/
theorem claim_C8_witness :
    (getClient NewRateLimiter "a" none 0).1.requestMax = 10 ∧
    (getClient NewRateLimiter "a" none 0).1.bucket.capacity = 5 ∧
    (runHandleLimit "a" none NewRateLimiter (0 :: List.replicate 10 0)).1 =
      List.replicate 10 Decision.Admitted ++
        [Decision.Rejected Reason.windowLimitExceeded] :=
  claim_C8 NewRateLimiter "a" none 0 (List.replicate 10 0)
    (by decide) rfl (Or.inl rfl) rfl
    (by intro t ht; simp at ht; simp [ht])

end Ratelimiter
